import Mathlib

/-
Shallow embedding of the EWC_Game server-side simulation core
(src/server/game/Player.js with its PlayerCell class, src/server/game/Food.js,
src/server/game/GameWorld.js, and the SpatialGrid plus optimized Player of
src/server/cluster-server.js).  JS numbers are modelled as real numbers,
Date.now() timestamps as real-valued parameters, Math.random() streams as
explicit function parameters, and uuid identifiers as naturals supplied by
the caller.
-/

namespace EWC

open Classical

noncomputable section

/-- Math.sqrt(dx*dx + dy*dy) as used throughout the source; Math.pow(a, 2)
is a*a. -/
def distPts (x1 y1 x2 y2 : ℝ) : ℝ :=
  Real.sqrt ((x1 - x2) * (x1 - x2) + (y1 - y2) * (y1 - y2))

/-- Food.js: class Food.  Random color and spawnTime are presentation only and
omitted.  Identifier supplied by the caller in place of uuidv4(). -/
structure MFood where
  fid : ℕ
  x : ℝ
  y : ℝ
  size : ℝ
  nutritionValue : ℝ
  eaten : Bool

/-- Food.createAt(x, y, size, nutritionValue). -/
def foodCreateAt (fid : ℕ) (x y size nutritionValue : ℝ) : MFood :=
  ⟨fid, x, y, size, nutritionValue, false⟩

/-- Player.js: class PlayerCell.  lastMergeCheck is never read and omitted;
color is presentation only. -/
structure PCell where
  cid : ℕ
  x : ℝ
  y : ℝ
  size : ℝ
  mass : ℝ
  vx : ℝ
  vy : ℝ
  splitTime : ℝ
  canMerge : Bool

/-- PlayerCell constructor: size = Math.sqrt(mass), vx = vy = 0,
canMerge = (splitTime === 0). -/
def mkPCell (cid : ℕ) (x y mass splitTime : ℝ) : PCell :=
  { cid := cid, x := x, y := y, size := Real.sqrt mass, mass := mass,
    vx := 0, vy := 0, splitTime := splitTime,
    canMerge := if splitTime = 0 then true else false }

/-- PlayerCell.update(deltaTime), with Date.now() passed as now. -/
def PCell.update (c : PCell) (dt now : ℝ) : PCell :=
  let timeSinceSplit := now - c.splitTime
  let friction : ℝ := if timeSinceSplit < 2000 then 0.95 else 0.92
  { c with
    x := c.x + c.vx * dt
    y := c.y + c.vy * dt
    vx := c.vx * friction
    vy := c.vy * friction
    size := Real.sqrt c.mass
    canMerge := if now - c.splitTime > 10000 then true else c.canMerge }

/-- The mass-loss-over-time branch of Player.update applied to one cell
(lines 427-431 of the multi-cell Player class). -/
def decayStep (c : PCell) (dt : ℝ) : PCell :=
  if c.mass > 500 then
    let m := max 400 (c.mass * (1 - 0.002 * dt))
    { c with mass := m, size := Real.sqrt m }
  else c

/-- PlayerCell.constrainToWorld(worldWidth, worldHeight). -/
def PCell.constrainToWorld (c : PCell) (w h : ℝ) : PCell :=
  let radius := c.size / 2
  { c with
    x := max radius (min (w - radius) c.x)
    y := max radius (min (h - radius) c.y) }

/-- Easy-merge fusion of Player.handleCellInteractions (lines 615-627):
cell2.mass is increased first, and the subsequent weighted averages read the
already-updated cell2.mass. -/
def fuseEasy (c1 c2 : PCell) : PCell :=
  let m := c2.mass + c1.mass
  { c2 with
    mass := m
    size := Real.sqrt m
    x := (c1.x * c1.mass + c2.x * m) / (c1.mass + m)
    y := (c1.y * c1.mass + c2.y * m) / (c1.mass + m)
    vx := (c1.vx * c1.mass + c2.vx * m) / (c1.mass + m)
    vy := (c1.vy * c1.mass + c2.vy * m) / (c1.mass + m)
    splitTime := 0
    canMerge := true }

/-- Hard-merge fusion (lines 628-642): same arithmetic, but splitTime keeps
the earlier value and canMerge is the conjunction. -/
def fuseHard (c1 c2 : PCell) : PCell :=
  let m := c2.mass + c1.mass
  { c2 with
    mass := m
    size := Real.sqrt m
    x := (c1.x * c1.mass + c2.x * m) / (c1.mass + m)
    y := (c1.y * c1.mass + c2.y * m) / (c1.mass + m)
    vx := (c1.vx * c1.mass + c2.vx * m) / (c1.mass + m)
    vy := (c1.vy * c1.mass + c2.vy * m) / (c1.mass + m)
    splitTime := min c1.splitTime c2.splitTime
    canMerge := c1.canMerge && c2.canMerge }

/-- Magnetic attraction applied when both cells can merge and
distance < easyMergeDistance * 1.5 (lines 601-612). -/
def attractStep (c1 c2 : PCell) : PCell × PCell :=
  let dx := c1.x - c2.x
  let dy := c1.y - c2.y
  let distance := Real.sqrt (dx * dx + dy * dy)
  let minDistance := (c1.size + c2.size) / 2
  let easyMergeDistance := minDistance + 20
  if distance < easyMergeDistance * 1.5 then
    let attractionForce := max 0.5 ((easyMergeDistance * 1.5 - distance) / 20)
    let ax := dx / distance * attractionForce
    let ay := dy / distance * attractionForce
    ({ c1 with vx := c1.vx - ax * 0.3, vy := c1.vy - ay * 0.3 },
     { c2 with vx := c2.vx + ax * 0.3, vy := c2.vy + ay * 0.3 })
  else (c1, c2)

/-- Result of one pairwise cell interaction: either cell1 was absorbed into
the updated cell2 (splice plus break in the source), or both cells continue
with possibly adjusted positions and velocities. -/
inductive InteractOut where
  | merged (c2 : PCell)
  | moved (c1 : PCell) (c2 : PCell)

/-- Anti-overlap collision system (lines 645-679); rand stands for the
Math.random() draw of the degenerate-overlap branch. -/
def antiOverlap (c1 c2 : PCell) (rand : ℝ) : InteractOut :=
  let dx := c1.x - c2.x
  let dy := c1.y - c2.y
  let distance := Real.sqrt (dx * dx + dy * dy)
  let minDistance := (c1.size + c2.size) / 2
  if distance < minDistance then
    if distance < 0.1 then
      let randomAngle := rand * Real.pi * 2
      InteractOut.moved
        { c1 with x := c1.x + Real.cos randomAngle * 2,
                  y := c1.y + Real.sin randomAngle * 2 }
        { c2 with x := c2.x - Real.cos randomAngle * 2,
                  y := c2.y - Real.sin randomAngle * 2 }
    else
      let pushForce := (minDistance - distance) / 2
      let px := dx / distance * pushForce
      let py := dy / distance * pushForce
      let totalMass := c1.mass + c2.mass
      let c1Ratio := c2.mass / totalMass
      let c2Ratio := c1.mass / totalMass
      InteractOut.moved
        { c1 with x := c1.x + px * c1Ratio, y := c1.y + py * c1Ratio,
                  vx := c1.vx + px * 0.1 * c1Ratio,
                  vy := c1.vy + py * 0.1 * c1Ratio }
        { c2 with x := c2.x - px * c2Ratio, y := c2.y - py * c2Ratio,
                  vx := c2.vx - px * 0.1 * c2Ratio,
                  vy := c2.vy - py * 0.1 * c2Ratio }
  else InteractOut.moved c1 c2

/-- The body of the doubly-nested loop of Player.handleCellInteractions
(lines 589-679) for one (cell1, cell2) pair. -/
def interactBody (c1 c2 : PCell) (rand : ℝ) : InteractOut :=
  let dx := c1.x - c2.x
  let dy := c1.y - c2.y
  let distance := Real.sqrt (dx * dx + dy * dy)
  let minDistance := (c1.size + c2.size) / 2
  let easyMergeDistance := minDistance + 20
  let hardMergeDistance := minDistance - 5
  if c1.canMerge = true ∧ c2.canMerge = true then
    let p := attractStep c1 c2
    if distance < easyMergeDistance then InteractOut.merged (fuseEasy p.1 p.2)
    else antiOverlap p.1 p.2 rand
  else if distance < hardMergeDistance ∧ (c1.canMerge = true ∨ c2.canMerge = true) then
    InteractOut.merged (fuseHard c1 c2)
  else antiOverlap c1 c2 rand

/-- Inner loop of handleCellInteractions: j runs from i-1 down to 0; fuel
j+1 processes index j.  Returns the updated list and whether a merge removed
index i (the break). -/
def innerLoop (rand : ℕ → ℕ → ℝ) (i : ℕ) : List PCell → ℕ → List PCell × Bool
  | cells, 0 => (cells, false)
  | cells, j + 1 =>
    match cells[i]?, cells[j]? with
    | some c1, some c2 =>
      match interactBody c1 c2 (rand i j) with
      | InteractOut.merged c2m => ((cells.set j c2m).eraseIdx i, true)
      | InteractOut.moved c1m c2m =>
        innerLoop rand i ((cells.set i c1m).set j c2m) j
    | _, _ => (cells, false)

/-- Outer loop of handleCellInteractions: i runs from cells.length-1 down to
0; fuel i+1 processes index i. -/
def outerLoop (rand : ℕ → ℕ → ℝ) : List PCell → ℕ → List PCell
  | cells, 0 => cells
  | cells, i + 1 => outerLoop rand (innerLoop rand i cells i).1 i

/-- Player.handleCellInteractions (early return when at most one cell). -/
def handleCellInteractions (cells : List PCell) (rand : ℕ → ℕ → ℝ) : List PCell :=
  if cells.length ≤ 1 then cells
  else outerLoop rand cells cells.length

/-- Player.js: the multi-cell Player class.  Presentation-only fields (name,
color, growthNotifications, lastMove) are omitted; socketId becomes pid. -/
structure MPlayer where
  pid : ℕ
  cells : List PCell
  targetX : ℝ
  targetY : ℝ
  lastSplit : ℝ
  invulnerable : Bool
  invulnerabilityStart : ℝ
  score : ℤ
  kills : ℕ
  alive : Bool
  spawned : Bool
  splitCooldown : ℝ
  isVIP : Bool
  lastGrowthMilestone : ℤ

/-- Player.getTotalMass: reduce((total, cell) => total + cell.mass, 0). -/
def getTotalMass (p : MPlayer) : ℝ :=
  (p.cells.map (fun c => c.mass)).sum

/-- Player.getCenterPosition. -/
def getCenterPosition (p : MPlayer) : ℝ × ℝ :=
  if p.cells = [] then (0, 0)
  else
    let totalMass := (p.cells.map (fun c => c.mass)).sum
    (((p.cells.map (fun c => c.x * c.mass)).sum) / totalMass,
     ((p.cells.map (fun c => c.y * c.mass)).sum) / totalMass)

/-- Player.spawn(x, y): one initial cell of mass 400 (1000 for VIP names);
cid is the fresh uuid, now is Date.now(). -/
def MPlayer.spawn (p : MPlayer) (x y : ℝ) (cid : ℕ) (now : ℝ) : MPlayer :=
  let initialMass : ℝ := if p.isVIP = true then 1000 else 400
  let sc : ℤ := ⌊initialMass / 4⌋
  { p with
    cells := [mkPCell cid x y initialMass 0]
    alive := true
    spawned := true
    invulnerable := true
    invulnerabilityStart := now
    score := sc
    lastGrowthMilestone :=
      if p.isVIP = true then ⌊(sc : ℝ) / 100⌋ else p.lastGrowthMilestone }

/-- Index selected by reduce((largest, cell) => cell.mass > largest.mass ?
cell : largest): the first cell of strictly maximal mass. -/
def largestIdx : List PCell → ℕ
  | [] => 0
  | c0 :: rest =>
    ((c0 :: rest).foldl
      (fun (acc : ℕ × ℝ × ℕ) c =>
        if c.mass > acc.2.1 then (acc.2.2, c.mass, acc.2.2 + 1)
        else (acc.1, acc.2.1, acc.2.2 + 1))
      ((0, c0.mass, 0) : ℕ × ℝ × ℕ)).1

/-- Player.checkGrowthMilestones (growthNotifications omitted). -/
def checkGrowthMilestones (p : MPlayer) : MPlayer :=
  let currentMilestone : ℤ := ⌊(p.score : ℝ) / 100⌋
  if currentMilestone > p.lastGrowthMilestone then
    let bonusMass : ℝ := (currentMilestone - p.lastGrowthMilestone : ℤ) * 50
    let li := largestIdx p.cells
    let newCells :=
      match p.cells[li]? with
      | some c =>
        p.cells.set li
          { c with mass := c.mass + bonusMass,
                   size := Real.sqrt (c.mass + bonusMass) }
      | none => p.cells
    { p with cells := newCells, lastGrowthMilestone := currentMilestone }
  else p

/-- Player.update(deltaTime) of the multi-cell class, with Date.now() passed
as now and the Math.random() stream of handleCellInteractions as rand. -/
def MPlayer.update (p : MPlayer) (now dt : ℝ) (rand : ℕ → ℕ → ℝ) : MPlayer :=
  if p.alive = false ∨ p.spawned = false ∨ p.cells = [] then p
  else
    let invuln : Bool :=
      if p.invulnerable = true ∧ now - p.invulnerabilityStart > 3000 then false
      else p.invulnerable
    let cells1 := p.cells.map (fun c => decayStep (c.update dt now) dt)
    let cells2 := handleCellInteractions cells1 rand
    let totalMass : ℝ := (cells2.map (fun c => c.mass)).sum
    checkGrowthMilestones
      { p with invulnerable := invuln, cells := cells2, score := ⌊totalMass / 4⌋ }

/-- The per-cell-pair eligibility test of Player.canEat and Player.eat:
20% mass advantage and overlapping centers. -/
def eatCond (c1 c2 : PCell) : Prop :=
  c1.mass > c2.mass * 1.2 ∧
    distPts c1.x c1.y c2.x c2.y < (c1.size + c2.size) / 2

/-- Inner scan of Player.canEat / Player.eat: first index j of other.cells
with eatCond, starting the count at j0. -/
def findHit (a : PCell) : List PCell → ℕ → Option ℕ
  | [], _ => none
  | b :: bs, j => if eatCond a b then some j else findHit a bs (j + 1)

/-- Outer scan of Player.canEat / Player.eat: first pair (i, j) of cell
indices satisfying eatCond, in source iteration order. -/
def findEatPairFrom (bs : List PCell) : List PCell → ℕ → Option (ℕ × ℕ)
  | [], _ => none
  | a :: as, i =>
    match findHit a bs 0 with
    | some j => some (i, j)
    | none => findEatPairFrom bs as (i + 1)

def findEatPair (as bs : List PCell) : Option (ℕ × ℕ) :=
  findEatPairFrom bs as 0

/-- Player.canEat(other); this === other is modelled as pid equality. -/
def canEat (p o : MPlayer) : Prop :=
  p.alive = true ∧ o.alive = true ∧ p.pid ≠ o.pid ∧
    o.invulnerable = false ∧ (findEatPair p.cells o.cells).isSome = true

/-- Player.die(). -/
def MPlayer.die (p : MPlayer) : MPlayer :=
  { p with alive := false, spawned := false, cells := [] }

/-- Player.eat(other): none models the return value false (no state change);
some (p, o) returns the mutated eater and the dead victim. -/
def MPlayer.eat (p o : MPlayer) : Option (MPlayer × MPlayer) :=
  if canEat p o then
    match findEatPair p.cells o.cells with
    | some (i, j) =>
      match p.cells[i]?, o.cells[j]? with
      | some myCell, some otherCell =>
        let m := myCell.mass + otherCell.mass * 0.8
        some
          ({ p with
              cells := p.cells.set i { myCell with mass := m, size := Real.sqrt m },
              kills := p.kills + 1 },
           o.die)
      | _, _ => none
    | none => none
  else none

/-- Index selected by the closest-cell scan of Player.eatFood: the first
cell of strictly minimal center distance to the food. -/
def closestIdx (cells : List PCell) (fx fy : ℝ) : ℕ :=
  match cells with
  | [] => 0
  | c0 :: rest =>
    ((c0 :: rest).foldl
      (fun (acc : ℕ × ℝ × ℕ) c =>
        if distPts c.x c.y fx fy < acc.2.1 then (acc.2.2, distPts c.x c.y fx fy, acc.2.2 + 1)
        else (acc.1, acc.2.1, acc.2.2 + 1))
      ((0, distPts c0.x c0.y fx fy, 0) : ℕ × ℝ × ℕ)).1

/-- Player.eatFood(food): none models the return value false (no state
change).  food.nutritionValue || 3 falls back to 3 exactly when the stored
nutrition value is falsy, i.e. zero in the numeric model. -/
def MPlayer.eatFood (p : MPlayer) (f : MFood) : Option MPlayer :=
  if p.alive = false ∨ p.cells = [] then none
  else
    let k := closestIdx p.cells f.x f.y
    match p.cells[k]? with
    | some closestCell =>
      if distPts closestCell.x closestCell.y f.x f.y < (closestCell.size + f.size) / 2 then
        let nutr : ℝ := if f.nutritionValue = 0 then 3 else f.nutritionValue
        let m := closestCell.mass + nutr
        some { p with cells := p.cells.set k { closestCell with mass := m, size := Real.sqrt m } }
      else none
    | none => none

/-- Math.atan2(y, x), realised as the argument of the complex number
x + y i. -/
def atan2 (y x : ℝ) : ℝ :=
  Complex.arg ⟨x, y⟩

/-- Player.split: the in-place mutation of one eligible original cell
(lines 562-570). -/
def splitOriginal (c : PCell) (tX tY now : ℝ) : PCell :=
  let newMass := c.mass / 2
  let newSize := Real.sqrt newMass
  let angle := atan2 (tY - c.y) (tX - c.x)
  let separationDistance := newSize * 2
  { c with
    x := c.x - Real.cos angle * separationDistance
    y := c.y - Real.sin angle * separationDistance
    mass := newMass
    size := newSize
    vx := -(Real.cos angle) * 15
    vy := -(Real.sin angle) * 15
    splitTime := now
    canMerge := false }

/-- Player.split: the forward-ejected new cell (lines 551-560), built with
the PlayerCell constructor and then given its sprint velocity. -/
def splitNewCell (c : PCell) (cid : ℕ) (tX tY now : ℝ) : PCell :=
  let newMass := c.mass / 2
  let newSize := Real.sqrt newMass
  let angle := atan2 (tY - c.y) (tX - c.x)
  let separationDistance := newSize * 2
  let base := mkPCell cid (c.x + Real.cos angle * separationDistance)
    (c.y + Real.sin angle * separationDistance) newMass now
  { base with vx := Real.cos angle * 20, vy := Real.sin angle * 20 }

/-- cells.filter(cell => cell.mass > 64) of Player.split. -/
def cellsToSplit : List PCell → List PCell
  | [] => []
  | c :: cs => if c.mass > 64 then c :: cellsToSplit cs else cellsToSplit cs

/-- The newCells list of Player.split, with fresh uuids provided by ids. -/
def newCellsFrom (tX tY now : ℝ) (ids : ℕ → ℕ) : List PCell → ℕ → List PCell
  | [], _ => []
  | c :: cs, k => splitNewCell c (ids k) tX tY now :: newCellsFrom tX tY now ids cs (k + 1)

/-- Player.split() of the multi-cell class: none models the return value
false.  There is no alive check in the source; only the 1000 ms cooldown and
the existence of a cell of mass above 64 gate the split. -/
def MPlayer.split (p : MPlayer) (now : ℝ) (ids : ℕ → ℕ) : Option MPlayer :=
  if now - p.lastSplit < p.splitCooldown then none
  else if cellsToSplit p.cells = [] then none
  else
    let originals := p.cells.map
      (fun c => if c.mass > 64 then splitOriginal c p.targetX p.targetY now else c)
    let newCells := newCellsFrom p.targetX p.targetY now ids (cellsToSplit p.cells) 0
    some { p with cells := originals ++ newCells, lastSplit := now }

/-- Player.constrainToWorld of the multi-cell class. -/
def MPlayer.constrainToWorld (p : MPlayer) (w h : ℝ) : MPlayer :=
  { p with cells := p.cells.map (fun c => c.constrainToWorld w h) }

/-- Player.collidesWith(other): some pair of cells overlaps. -/
def collidesWith (p o : MPlayer) : Prop :=
  p.alive = true ∧ o.alive = true ∧
    ∃ a ∈ p.cells, ∃ b ∈ o.cells,
      distPts a.x a.y b.x b.y < (a.size + b.size) / 2

/-- GameWorld.createFoodExplosion(x, y, mass): at most 20 food items of size
8 and nutrition value 2 on a ring, clamped to the world; rands is the
Math.random() stream and ids the uuid stream. -/
def createFoodExplosion (x y mass w h : ℝ) (rands : ℕ → ℝ) (ids : ℕ → ℕ) :
    List MFood :=
  let foodCount : ℕ := min (⌊mass / 20⌋.toNat) 20
  (List.range foodCount).map (fun (i : ℕ) =>
    let angle := Real.pi * 2 * (i : ℝ) / (foodCount : ℝ)
    let distance := 50 + rands i * 100
    let foodX := x + Real.cos angle * distance
    let foodY := y + Real.sin angle * distance
    let clampedX := max 10 (min (w - 10) foodX)
    let clampedY := max 10 (min (h - 10) foodY)
    foodCreateAt (ids i) clampedX clampedY 8 2)

/-- One iteration of the player-vs-player part of GameWorld.checkCollisions
(lines 158-181) for an ordered pair: skip when either is invulnerable,
otherwise let the eligible player eat the other and scatter food at the
victim's pre-death center of mass. -/
def collidePP (p1 p2 : MPlayer) (w h : ℝ) (rands : ℕ → ℝ) (ids : ℕ → ℕ) :
    MPlayer × MPlayer × List MFood :=
  if p1.invulnerable = true ∨ p2.invulnerable = true then (p1, p2, [])
  else if collidesWith p1 p2 then
    if canEat p1 p2 then
      let center2 := getCenterPosition p2
      let totalMass2 := getTotalMass p2
      let r := match p1.eat p2 with
        | some e => e
        | none => (p1, p2)
      (r.1, r.2, createFoodExplosion center2.1 center2.2 totalMass2 w h rands ids)
    else if canEat p2 p1 then
      let center1 := getCenterPosition p1
      let totalMass1 := getTotalMass p1
      let r := match p2.eat p1 with
        | some e => e
        | none => (p2, p1)
      (r.2, r.1, createFoodExplosion center1.1 center1.2 totalMass1 w h rands ids)
    else (p1, p2, [])
  else (p1, p2, [])

/-- The food scan of GameWorld.checkCollisions (lines 138-154) for one cell
index k of one player: first overlapping, successfully eaten food item is
removed and scanning stops (the break). -/
def cellFoodScan (p : MPlayer) (k : ℕ) : List MFood → MPlayer × List MFood
  | [] => (p, [])
  | f :: fs =>
    if f.eaten = true then
      let r := cellFoodScan p k fs
      (r.1, f :: r.2)
    else
      match p.cells[k]? with
      | some cell =>
        if distPts cell.x cell.y f.x f.y < (cell.size + f.size) / 2 then
          match p.eatFood f with
          | some pe => (pe, fs)
          | none =>
            let r := cellFoodScan p k fs
            (r.1, f :: r.2)
        else
          let r := cellFoodScan p k fs
          (r.1, f :: r.2)
      | none => (p, f :: fs)

/-- The food scan for every cell of one player; the cell count is not
changed by eatFood, so the iteration range is the initial length. -/
def playerFoodPass (p : MPlayer) (foods : List MFood) : MPlayer × List MFood :=
  (List.range p.cells.length).foldl
    (fun acc k => cellFoodScan acc.1 k acc.2) (p, foods)

/-- Indices of the playerArray snapshot taken at the top of
GameWorld.checkCollisions: alive players with at least one cell. -/
def aliveIdxsFrom : List MPlayer → ℕ → List ℕ
  | [], _ => []
  | p :: rest, k =>
    if p.alive = true ∧ p.cells ≠ [] then k :: aliveIdxsFrom rest (k + 1)
    else aliveIdxsFrom rest (k + 1)

def aliveIdxs (ps : List MPlayer) : List ℕ :=
  aliveIdxsFrom ps 0

/-- Ordered index pairs (i before j in the snapshot) of the player-vs-player
double loop. -/
def pairsOf : List ℕ → List (ℕ × ℕ)
  | [] => []
  | x :: xs => xs.map (fun y => (x, y)) ++ pairsOf xs

/-- Player-vs-food phase over all snapshot players. -/
def foodPassAll (idxs : List ℕ) (ps : List MPlayer) (foods : List MFood) :
    List MPlayer × List MFood :=
  idxs.foldl
    (fun acc i =>
      match acc.1[i]? with
      | some p =>
        let r := playerFoodPass p acc.2
        (acc.1.set i r.1, r.2)
      | none => acc)
    (ps, foods)

/-- Player-vs-player phase: fold over the snapshot pairs, writing back both
players and appending any explosion food; k counts processed pairs to index
the random and uuid streams. -/
def pvpAll (w h : ℝ) (er : ℕ → ℕ → ℝ) (eid : ℕ → ℕ → ℕ) :
    List (ℕ × ℕ) → ℕ → List MPlayer × List MFood → List MPlayer × List MFood
  | [], _, acc => acc
  | (i, j) :: rest, k, (ps, foods) =>
    match ps[i]?, ps[j]? with
    | some p1, some p2 =>
      let r := collidePP p1 p2 w h (er k) (eid k)
      pvpAll w h er eid rest (k + 1) ((ps.set i r.1).set j r.2.1, foods ++ r.2.2)
    | _, _ => pvpAll w h er eid rest (k + 1) (ps, foods)

/-- GameWorld.checkCollisions. -/
def checkCollisions (ps : List MPlayer) (foods : List MFood) (w h : ℝ)
    (er : ℕ → ℕ → ℝ) (eid : ℕ → ℕ → ℕ) : List MPlayer × List MFood :=
  let idxs := aliveIdxs ps
  let r1 := foodPassAll idxs ps foods
  pvpAll w h er eid (pairsOf idxs) 0 r1

/-- GameWorld.maintainFood: top up toward the target, at most 5 spawns per
update, with the randomly placed food supplied by supply. -/
def maintainFood (foods : List MFood) (target : ℕ) (supply : ℕ → MFood) :
    List MFood :=
  if foods.length < target then
    foods ++ (List.range (min 5 (target - foods.length))).map supply
  else foods

/-- The update-and-constrain loop of GameWorld.update (lines 118-123); randP
gives each player index its Math.random() stream. -/
def updateAll (now dt w h : ℝ) (randP : ℕ → ℕ → ℕ → ℝ) :
    List MPlayer → ℕ → List MPlayer
  | [], _ => []
  | p :: rest, k =>
    (if p.alive = true then (p.update now dt (randP k)).constrainToWorld w h else p) ::
      updateAll now dt w h randP rest (k + 1)

/-- GameWorld.update: one complete tick (player updates and constraint, then
collision resolution, then food maintenance). -/
def tick (ps : List MPlayer) (foods : List MFood) (now lastUpdate w h : ℝ)
    (randP : ℕ → ℕ → ℕ → ℝ) (er : ℕ → ℕ → ℝ) (eid : ℕ → ℕ → ℕ)
    (foodTarget : ℕ) (supply : ℕ → MFood) : List MPlayer × List MFood :=
  let dt := (now - lastUpdate) / 1000
  let ps1 := updateAll now dt w h randP ps 0
  let r := checkCollisions ps1 foods w h er eid
  (r.1, maintainFood r.2 foodTarget supply)

end

namespace Cluster

noncomputable section

/-- cluster-server.js SpatialGrid with the fixed cellSize 500 and world
5000x5000.  The Map of Sets is modelled as a total function from grid-cell
coordinates to finite id sets; deleting an emptied Set only removes a key
whose bucket is already empty, which is invisible to membership queries. -/
def Grid : Type := ℤ × ℤ → Finset ℕ

/-- SpatialGrid.getCell(x, y) with cellSize 500. -/
def getCell (x y : ℝ) : ℤ × ℤ :=
  (⌊x / 500⌋, ⌊y / 500⌋)

/-- SpatialGrid.addPlayer(playerId, x, y). -/
def addPlayer (g : Grid) (playerId : ℕ) (x y : ℝ) : Grid :=
  fun c => if c = getCell x y then insert playerId (g (getCell x y)) else g c

/-- SpatialGrid.removePlayer(playerId, x, y). -/
def removePlayer (g : Grid) (playerId : ℕ) (x y : ℝ) : Grid :=
  fun c => if c = getCell x y then (g (getCell x y)).erase playerId else g c

/-- SpatialGrid.getNearbyPlayers(x, y, radius): union of the buckets in the
(2 radius + 1) square centered on the containing cell. -/
def getNearby (g : Grid) (x y : ℝ) (radius : ℤ) : Finset ℕ :=
  ((Finset.Icc (⌊x / 500⌋ - radius) (⌊x / 500⌋ + radius)) ×ˢ
    (Finset.Icc (⌊y / 500⌋ - radius) (⌊y / 500⌋ + radius))).biUnion g

/-- The optimized Player class of cluster-server.js. -/
structure CPlayer where
  id : ℕ
  x : ℝ
  y : ℝ
  vx : ℝ
  vy : ℝ
  mass : ℝ
  size : ℝ
  lastUpdate : ℝ
  gridCell : ℤ × ℤ

/-- Player.update() of cluster-server.js (lines 135-157): integrate, clamp
to the world, and move the spatial-grid entry when the bucket changed.  The
remove call passes this.gridCell.split(',').map(Number) — the bucket
coordinates themselves — as the x, y arguments. -/
def CPlayer.update (p : CPlayer) (g : Grid) (now : ℝ) : CPlayer × Grid :=
  let deltaTime := (now - p.lastUpdate) / 1000
  let x1 := p.x + p.vx * deltaTime * 60
  let y1 := p.y + p.vy * deltaTime * 60
  let radius := p.size / 2
  let x2 := max radius (min (5000 - radius) x1)
  let y2 := max radius (min (5000 - radius) y1)
  let newCell := getCell x2 y2
  let gcell : Grid × (ℤ × ℤ) :=
    if newCell ≠ p.gridCell then
      (addPlayer (removePlayer g p.id (p.gridCell.1 : ℝ) (p.gridCell.2 : ℝ)) p.id x2 y2,
        newCell)
    else (g, p.gridCell)
  ({ p with
      x := x2
      y := y2
      gridCell := gcell.2
      size := Real.sqrt p.mass
      lastUpdate := now },
    gcell.1)

end

end Cluster

noncomputable section

/-- The spec's radius-derivation invariant for one cell: the stored size
field equals the square root of the stored mass. -/
def SizeOk (c : PCell) : Prop :=
  c.size = Real.sqrt c.mass

/-- SizeOk for every cell of a list. -/
def CellsOk (cells : List PCell) : Prop :=
  ∀ c ∈ cells, SizeOk c

/-- SizeOk for every cell produced by a pairwise interaction. -/
def OutOk : InteractOut → Prop
  | InteractOut.merged c2 => SizeOk c2
  | InteractOut.moved c1 c2 => SizeOk c1 ∧ SizeOk c2

/-- Sample cell of mass 400 at (100, 100). -/
def cell400 : PCell := ⟨1, 100, 100, 20, 400, 0, 0, 0, true⟩

/-- Sample alive single-cell player owning cell400. -/
def player7 : MPlayer :=
  ⟨10, [cell400], 0, 0, 0, false, 0, 100, 0, true, true, 1000, false, 1⟩

/-- Eater cell of mass 900 at the origin. -/
def cellA : PCell := ⟨1, 0, 0, 30, 900, 0, 0, 0, true⟩

/-- Victim cell of mass 400 at (5, 0), overlapping cellA. -/
def cellB : PCell := ⟨2, 5, 0, 20, 400, 0, 0, 0, true⟩

/-- Eater player (mass 900, not invulnerable). -/
def playerA : MPlayer :=
  ⟨1, [cellA], 0, 0, 0, false, 0, 225, 0, true, true, 1000, false, 3⟩

/-- Victim player (mass 400, not invulnerable). -/
def playerB : MPlayer :=
  ⟨2, [cellB], 0, 0, 0, false, 0, 100, 0, true, true, 1000, false, 1⟩

/-- An invulnerable copy of the victim configuration. -/
def playerBI : MPlayer :=
  ⟨3, [cellB], 0, 0, 0, true, 0, 100, 0, true, true, 1000, false, 1⟩

/-- Merge-eligible cell of mass 100 at the origin. -/
def cellM1 : PCell := ⟨1, 0, 0, 10, 100, 0, 0, 0, true⟩

/-- Merge-eligible cell of mass 100 at (10, 0). -/
def cellM2 : PCell := ⟨2, 10, 0, 10, 100, 0, 0, 0, true⟩

/-- Near small cell: 20 away from the origin food, not overlapping it. -/
def cellNear : PCell := ⟨1, 20, 0, 20, 400, 0, 0, 0, true⟩

/-- Far huge cell: 100 away from the origin food but overlapping it. -/
def cellFar : PCell := ⟨2, 0, 100, 300, 90000, 0, 0, 0, true⟩

/-- Two-cell player whose closest cell does not overlap the food. -/
def player10 : MPlayer :=
  ⟨4, [cellNear, cellFar], 0, 0, 0, false, 0, 100, 0, true, true, 1000, false, 226⟩

/-- Food of nutrition 1 at the origin. -/
def foodO : MFood := ⟨9, 0, 0, 6, 1, false⟩

/-- Freshly spawned cell of mass 400 at the center of the 5000x5000 world. -/
def cell2C : PCell := ⟨1, 2500, 2500, 20, 400, 0, 0, 0, true⟩

/-- Freshly spawned player (1000 ms after spawn, still invulnerable) as
produced by Player.spawn at (2500, 2500). -/
def player2C : MPlayer :=
  ⟨1, [cell2C], 2500, 2500, 0, true, 9000, 100, 0, true, true, 1000, false, 0⟩

/-- Nutrition-1 food at distance 15 from player2C's center. -/
def food2C : MFood := ⟨5, 2515, 2500, 6, 1, false⟩

/-- Nutrition-1 food at distance 12 from player2C's center (overlapping). -/
def food12 : MFood := ⟨6, 2512, 2500, 6, 1, false⟩

/-- The state of player2C's cell after one update: the growth-milestone
bonus of the first tick has raised its mass to 450. -/
def cell450 : PCell := ⟨1, 2500, 2500, Real.sqrt 450, 450, 0, 0, 0, true⟩

/-- The state of player2C after one update. -/
def player450 : MPlayer :=
  ⟨1, [cell450], 2500, 2500, 0, true, 9000, 100, 0, true, true, 1000, false, 1⟩

/-- Food supply stream for maintainFood in the concrete scenarios. -/
def supplyC : ℕ → MFood := fun i => ⟨100 + i, 50, 50, 6, 1, false⟩

/-- Wall-adjacent cell of mass 324 at (9, 100): its center sits at
size/2 = 9 from the left wall. -/
def cell324 : PCell := ⟨1, 9, 100, 18, 324, 0, 0, 0, true⟩

/-- Player owning cell324, past its invulnerability window. -/
def player5C : MPlayer :=
  ⟨1, [cell324], 9, 100, 0, false, 0, 81, 0, true, true, 1000, false, 0⟩

/-- The state of cell324 after one update (no decay, no growth bonus). -/
def cell324u : PCell := ⟨1, 9, 100, Real.sqrt 324, 324, 0, 0, 0, true⟩

/-- The state of player5C after one update. -/
def player324u : MPlayer :=
  ⟨1, [cell324u], 9, 100, 0, false, 0, 81, 0, true, true, 1000, false, 0⟩

/-- Sample cluster-server player sitting in grid bucket (1, 0). -/
def cp8 : Cluster.CPlayer := ⟨7, 600, 100, 0, 0, 400, 20, 0, (1, 0)⟩

/-- Moving cluster-server player: 10 px/frame rightward from bucket (1, 0). -/
def cp9 : Cluster.CPlayer := ⟨7, 600, 100, 10, 0, 400, 20, 0, (1, 0)⟩

/-- Grid holding id 7 in bucket (1, 0) and nothing else. -/
def g8 : Cluster.Grid :=
  fun c => if c = (1, 0) then {7} else ∅

end

theorem sqrt_eval {a b : ℝ} (hb : 0 ≤ b) (h : b * b = a) : Real.sqrt a = b := by
  rw [← h, ← pow_two, Real.sqrt_sq hb]

theorem sqrt400 : Real.sqrt 400 = 20 := sqrt_eval (by norm_num) (by norm_num)

theorem sqrt900 : Real.sqrt 900 = 30 := sqrt_eval (by norm_num) (by norm_num)

theorem sqrt25 : Real.sqrt 25 = 5 := sqrt_eval (by norm_num) (by norm_num)

theorem sqrt100 : Real.sqrt 100 = 10 := sqrt_eval (by norm_num) (by norm_num)

theorem sqrt144 : Real.sqrt 144 = 12 := sqrt_eval (by norm_num) (by norm_num)

theorem sqrt225 : Real.sqrt 225 = 15 := sqrt_eval (by norm_num) (by norm_num)

theorem sqrt324 : Real.sqrt 324 = 18 := sqrt_eval (by norm_num) (by norm_num)

theorem sqrt10000 : Real.sqrt 10000 = 100 := sqrt_eval (by norm_num) (by norm_num)

theorem sqrt450_le : Real.sqrt 450 ≤ 24 := by
  calc Real.sqrt 450 ≤ Real.sqrt 576 := Real.sqrt_le_sqrt (by norm_num)
    _ = 24 := sqrt_eval (by norm_num) (by norm_num)

theorem splitOriginal_mass (c : PCell) (tX tY now : ℝ) :
    (splitOriginal c tX tY now).mass = c.mass / 2 := by
  simp [splitOriginal]

theorem splitNewCell_mass (c : PCell) (cid : ℕ) (tX tY now : ℝ) :
    (splitNewCell c cid tX tY now).mass = c.mass / 2 := by
  simp [splitNewCell, mkPCell]

theorem newCellsFrom_map_mass (tX tY now : ℝ) (ids : ℕ → ℕ) :
    ∀ (cs : List PCell) (k : ℕ),
      (newCellsFrom tX tY now ids cs k).map (fun c => c.mass)
        = cs.map (fun c => c.mass / 2)
  | [], _ => rfl
  | c :: cs, k => by
    simp only [newCellsFrom, List.map_cons, splitNewCell_mass,
      newCellsFrom_map_mass tX tY now ids cs (k + 1)]

theorem splitSum (cells : List PCell) :
    (cells.map (fun c => if c.mass > 64 then c.mass / 2 else c.mass)).sum
      + ((cellsToSplit cells).map (fun c => c.mass / 2)).sum
      = (cells.map (fun c => c.mass)).sum := by
  induction cells with
  | nil => simp [cellsToSplit]
  | cons c cs ih =>
    by_cases h : c.mass > 64
    · simp only [List.map_cons, List.sum_cons, cellsToSplit, if_pos h]
      linarith
    · simp only [List.map_cons, List.sum_cons, cellsToSplit, if_neg h]
      linarith

/-- C7: whenever split succeeds, every cell of mass above 64 becomes two
cells of half its mass (the halved originals followed by the halved new
cells, in source order), and the player's total mass is unchanged. -/
theorem split_mass_conservation (p p' : MPlayer) (now : ℝ) (ids : ℕ → ℕ)
    (h : p.split now ids = some p') :
    p'.cells.map (fun c => c.mass)
        = p.cells.map (fun c => if c.mass > 64 then c.mass / 2 else c.mass)
          ++ (cellsToSplit p.cells).map (fun c => c.mass / 2)
      ∧ getTotalMass p' = getTotalMass p := by
  rw [MPlayer.split] at h
  by_cases h1 : now - p.lastSplit < p.splitCooldown
  · rw [if_pos h1] at h; exact absurd h (by simp)
  rw [if_neg h1] at h
  by_cases h2 : cellsToSplit p.cells = []
  · rw [if_pos h2] at h; exact absurd h (by simp)
  rw [if_neg h2] at h
  have hp : p' = { p with
      cells := p.cells.map
          (fun c => if c.mass > 64 then splitOriginal c p.targetX p.targetY now else c)
        ++ newCellsFrom p.targetX p.targetY now ids (cellsToSplit p.cells) 0,
      lastSplit := now } := by
    exact (Option.some_injective _ h).symm
  have hmap : p'.cells.map (fun c => c.mass)
      = p.cells.map (fun c => if c.mass > 64 then c.mass / 2 else c.mass)
        ++ (cellsToSplit p.cells).map (fun c => c.mass / 2) := by
    rw [hp]
    simp only [List.map_append, newCellsFrom_map_mass, List.map_map]
    congr 1
    apply List.map_congr_left
    intro c _
    by_cases hc : c.mass > 64
    · simp [hc, splitOriginal_mass]
    · simp [hc]
  refine ⟨hmap, ?_⟩
  rw [getTotalMass, getTotalMass, hmap, List.sum_append, splitSum]

/-- C7 witness: the sample player of one 400-mass cell splits at time 5000
and keeps its total mass. -/
theorem split_mass_conservation_witness :
    ∃ p', player7.split 5000 (fun k => k + 2) = some p'
      ∧ getTotalMass p' = getTotalMass player7 := by
  have hs : (player7.split 5000 (fun k => k + 2)).isSome = true := by
    rw [MPlayer.split]
    rw [if_neg (by norm_num [player7]), if_neg ?_]
    · rfl
    · simp only [player7, cellsToSplit, cell400]
      norm_num
  obtain ⟨p', hp'⟩ := Option.isSome_iff_exists.mp hs
  exact ⟨p', hp', (split_mass_conservation player7 p' 5000 (fun k => k + 2) hp').2⟩

theorem sizeOk_mk (cid : ℕ) (x y m st : ℝ) : SizeOk (mkPCell cid x y m st) := by
  simp [mkPCell, SizeOk]

theorem sizeOk_update (c : PCell) (dt now : ℝ) : SizeOk (c.update dt now) := by
  simp [PCell.update, SizeOk]

theorem sizeOk_decay {c : PCell} (hc : SizeOk c) (dt : ℝ) :
    SizeOk (decayStep c dt) := by
  rw [decayStep]
  split_ifs with h
  · simp [SizeOk]
  · exact hc

theorem sizeOk_constrain {c : PCell} (hc : SizeOk c) (w h : ℝ) :
    SizeOk (c.constrainToWorld w h) := hc

theorem sizeOk_fuseEasy (c1 c2 : PCell) : SizeOk (fuseEasy c1 c2) := by
  simp [fuseEasy, SizeOk]

theorem sizeOk_fuseHard (c1 c2 : PCell) : SizeOk (fuseHard c1 c2) := by
  simp [fuseHard, SizeOk]

theorem sizeOk_attract_fst {c1 : PCell} (c2 : PCell) (h : SizeOk c1) :
    SizeOk (attractStep c1 c2).1 := by
  rw [attractStep]
  split_ifs <;> exact h

theorem sizeOk_attract_snd (c1 : PCell) {c2 : PCell} (h : SizeOk c2) :
    SizeOk (attractStep c1 c2).2 := by
  rw [attractStep]
  split_ifs <;> exact h

theorem outOk_antiOverlap {c1 c2 : PCell} (r : ℝ)
    (h1 : SizeOk c1) (h2 : SizeOk c2) : OutOk (antiOverlap c1 c2 r) := by
  rw [antiOverlap]
  split_ifs <;> exact ⟨h1, h2⟩

theorem outOk_interact {c1 c2 : PCell} (r : ℝ)
    (h1 : SizeOk c1) (h2 : SizeOk c2) : OutOk (interactBody c1 c2 r) := by
  rw [interactBody]
  split_ifs with ha hb hcnd
  · exact sizeOk_fuseEasy _ _
  · exact outOk_antiOverlap r (sizeOk_attract_fst c2 h1) (sizeOk_attract_snd c1 h2)
  · exact sizeOk_fuseHard _ _
  · exact outOk_antiOverlap r h1 h2

theorem cellsOk_set {cells : List PCell} {c : PCell} (i : ℕ)
    (h : CellsOk cells) (hc : SizeOk c) : CellsOk (cells.set i c) := by
  intro d hd
  rcases List.mem_or_eq_of_mem_set hd with hmem | rfl
  · exact h d hmem
  · exact hc

theorem cellsOk_eraseIdx {cells : List PCell} (i : ℕ) (h : CellsOk cells) :
    CellsOk (cells.eraseIdx i) :=
  fun d hd => h d (List.mem_of_mem_eraseIdx hd)

theorem cellsOk_innerLoop (rand : ℕ → ℕ → ℝ) (i : ℕ) :
    ∀ (fuel : ℕ) (cells : List PCell), CellsOk cells →
      CellsOk (innerLoop rand i cells fuel).1
  | 0, cells, h => h
  | fuel + 1, cells, h => by
    rw [innerLoop]
    split
    next c1 c2 hi hj =>
      have h1 : SizeOk c1 := h c1 (List.getElem?_mem hi)
      have h2 : SizeOk c2 := h c2 (List.getElem?_mem hj)
      have hout := outOk_interact (rand i fuel) h1 h2
      split
      next c2m hib =>
        rw [hib] at hout
        exact cellsOk_eraseIdx i (cellsOk_set fuel h hout)
      next c1m c2m hib =>
        rw [hib] at hout
        exact cellsOk_innerLoop rand i fuel _
          (cellsOk_set fuel (cellsOk_set i h hout.1) hout.2)
    next => exact h

theorem cellsOk_outerLoop (rand : ℕ → ℕ → ℝ) :
    ∀ (fuel : ℕ) (cells : List PCell), CellsOk cells →
      CellsOk (outerLoop rand cells fuel)
  | 0, _, h => h
  | fuel + 1, cells, h =>
    cellsOk_outerLoop rand fuel _ (cellsOk_innerLoop rand fuel fuel cells h)

theorem cellsOk_handle {cells : List PCell} (rand : ℕ → ℕ → ℝ)
    (h : CellsOk cells) : CellsOk (handleCellInteractions cells rand) := by
  rw [handleCellInteractions]
  split_ifs
  · exact h
  · exact cellsOk_outerLoop rand cells.length cells h

theorem cellsOk_growth {p : MPlayer} (hp : CellsOk p.cells) :
    CellsOk (checkGrowthMilestones p).cells := by
  rw [checkGrowthMilestones]
  split_ifs with h
  · cases hli : p.cells[largestIdx p.cells]? with
    | none => simpa [hli] using hp
    | some c =>
      simp only [hli]
      exact cellsOk_set _ hp (by simp [SizeOk])
  · exact hp

theorem cellsOk_mplayer_update {p : MPlayer} (now dt : ℝ) (rand : ℕ → ℕ → ℝ)
    (hp : CellsOk p.cells) : CellsOk (p.update now dt rand).cells := by
  rw [MPlayer.update]
  split_ifs with h h2
  · exact hp
  all_goals
    apply cellsOk_growth
    apply cellsOk_handle
    intro c hc
    rcases List.mem_map.mp hc with ⟨c0, _, rfl⟩
    exact sizeOk_decay (sizeOk_update c0 dt now) dt

theorem cellsOk_eat {p o : MPlayer} (hp : CellsOk p.cells)
    {q r : MPlayer} (h : p.eat o = some (q, r)) :
    CellsOk q.cells ∧ CellsOk r.cells := by
  rw [MPlayer.eat] at h
  split_ifs at h with hce
  split at h
  next i j hfind =>
    split at h
    next mc oc hi hj =>
      have hpair := Option.some_injective _ h
      injection hpair with hq hr
      subst hq
      subst hr
      constructor
      · exact cellsOk_set i hp (by simp [SizeOk])
      · intro c hc
        simp [MPlayer.die] at hc
    next => exact absurd h (by simp)
  next => exact absurd h (by simp)

theorem cellsOk_eatFood {p : MPlayer} (f : MFood) (hp : CellsOk p.cells)
    {q : MPlayer} (h : p.eatFood f = some q) : CellsOk q.cells := by
  rw [MPlayer.eatFood] at h
  split_ifs at h with hcond hnut
  all_goals
    dsimp only at h
    split at h
    next c hk =>
      split_ifs at h with hdist
      have hq := Option.some_injective _ h
      subst hq
      exact cellsOk_set _ hp (by simp [SizeOk])
    next => exact absurd h (by simp)

theorem sizeOk_splitOriginal (c : PCell) (tX tY now : ℝ) :
    SizeOk (splitOriginal c tX tY now) := by
  simp [splitOriginal, SizeOk]

theorem sizeOk_splitNewCell (c : PCell) (cid : ℕ) (tX tY now : ℝ) :
    SizeOk (splitNewCell c cid tX tY now) := by
  simp [splitNewCell, mkPCell, SizeOk]

theorem cellsOk_newCellsFrom (tX tY now : ℝ) (ids : ℕ → ℕ) :
    ∀ (cs : List PCell) (k : ℕ), CellsOk (newCellsFrom tX tY now ids cs k)
  | [], _ => by intro c hc; simp [newCellsFrom] at hc
  | c :: cs, k => by
    intro d hd
    rw [newCellsFrom] at hd
    rcases List.mem_cons.mp hd with rfl | hmem
    · exact sizeOk_splitNewCell c (ids k) tX tY now
    · exact cellsOk_newCellsFrom tX tY now ids cs (k + 1) d hmem

theorem cellsOk_split {p : MPlayer} (now : ℝ) (ids : ℕ → ℕ)
    (hp : CellsOk p.cells) {q : MPlayer} (h : p.split now ids = some q) :
    CellsOk q.cells := by
  rw [MPlayer.split] at h
  by_cases h1 : now - p.lastSplit < p.splitCooldown
  · rw [if_pos h1] at h; exact absurd h (by simp)
  rw [if_neg h1] at h
  by_cases h2 : cellsToSplit p.cells = []
  · rw [if_pos h2] at h; exact absurd h (by simp)
  rw [if_neg h2] at h
  have hq := Option.some_injective _ h
  subst hq
  intro c hc
  rcases List.mem_append.mp hc with hmem | hmem
  · rcases List.mem_map.mp hmem with ⟨c0, hc0, rfl⟩
    by_cases hb : c0.mass > 64
    · simpa [hb] using sizeOk_splitOriginal c0 p.targetX p.targetY now
    · simpa [hb] using hp c0 hc0
  · exact cellsOk_newCellsFrom p.targetX p.targetY now ids _ 0 c hmem

/-- C4: the stored size field equals sqrt(mass) after construction and
after every update, eat, eatFood, split, merge or anti-overlap interaction,
decay, and growth-bonus operation, whenever the input cells satisfy the
invariant. -/
theorem radius_sqrt_invariant
    (c1 c2 : PCell) (p po : MPlayer) (f : MFood) (cid : ℕ)
    (x y m st now dt r : ℝ) (rand : ℕ → ℕ → ℝ) (ids : ℕ → ℕ)
    (hc1 : SizeOk c1) (hc2 : SizeOk c2)
    (hp : CellsOk p.cells) (hpo : CellsOk po.cells) :
    SizeOk (mkPCell cid x y m st)
      ∧ SizeOk (c1.update dt now)
      ∧ SizeOk (decayStep c1 dt)
      ∧ OutOk (interactBody c1 c2 r)
      ∧ CellsOk (p.update now dt rand).cells
      ∧ (∀ q o, p.eat po = some (q, o) → CellsOk q.cells ∧ CellsOk o.cells)
      ∧ (∀ q, p.eatFood f = some q → CellsOk q.cells)
      ∧ (∀ q, p.split now ids = some q → CellsOk q.cells)
      ∧ CellsOk (checkGrowthMilestones p).cells :=
  ⟨sizeOk_mk cid x y m st,
   sizeOk_update c1 dt now,
   sizeOk_decay hc1 dt,
   outOk_interact r hc1 hc2,
   cellsOk_mplayer_update now dt rand hp,
   fun q o h => cellsOk_eat hp h,
   fun q h => cellsOk_eatFood f hp h,
   fun q h => cellsOk_split now ids hp h,
   cellsOk_growth hp⟩

/-- C4 witness: the invariant checked on concrete cells and a concrete
player. -/
theorem radius_sqrt_invariant_witness :
    SizeOk (mkPCell 1 2 3 450 0) ∧ SizeOk (decayStep cell400 0.05)
      ∧ CellsOk (player7.update 9000 0.05 (fun _ _ => 0)).cells := by
  have hc : SizeOk cell400 := by
    simp [cell400, SizeOk, sqrt400]
  have hp : CellsOk player7.cells := by
    intro c hcm
    simp only [player7, List.mem_singleton] at hcm
    rw [hcm]
    exact hc
  have h := radius_sqrt_invariant cell400 cell400 player7 player7 foodO 1 2 3 450 0
    9000 0.05 0 (fun _ _ => 0) (fun k => k) hc hc hp hp
  exact ⟨h.1, h.2.2.1, h.2.2.2.2.1⟩

theorem attract_fst_x (c1 c2 : PCell) : (attractStep c1 c2).1.x = c1.x := by
  rw [attractStep]; split_ifs <;> rfl

theorem attract_fst_y (c1 c2 : PCell) : (attractStep c1 c2).1.y = c1.y := by
  rw [attractStep]; split_ifs <;> rfl

theorem attract_fst_mass (c1 c2 : PCell) : (attractStep c1 c2).1.mass = c1.mass := by
  rw [attractStep]; split_ifs <;> rfl

theorem attract_snd_x (c1 c2 : PCell) : (attractStep c1 c2).2.x = c2.x := by
  rw [attractStep]; split_ifs <;> rfl

theorem attract_snd_y (c1 c2 : PCell) : (attractStep c1 c2).2.y = c2.y := by
  rw [attractStep]; split_ifs <;> rfl

theorem attract_snd_mass (c1 c2 : PCell) : (attractStep c1 c2).2.mass = c2.mass := by
  rw [attractStep]; split_ifs <;> rfl

/-- C3 (amended): when two merge-eligible cells are within the easy-merge
distance they fuse into one cell of mass M1+M2 with splitTime 0, but the
weighted averages for position and momentum use the survivor's already
updated mass M1+M2 in place of M2: the merged position is
(x1*M1 + x2*(M1+M2))/(M1 + (M1+M2)) componentwise, and the momentum is
combined with the same weights from the attraction-adjusted velocities. -/
theorem merge_easy_formula (c1 c2 : PCell) (r : ℝ)
    (h1 : c1.canMerge = true) (h2 : c2.canMerge = true)
    (hd : Real.sqrt ((c1.x - c2.x) * (c1.x - c2.x) + (c1.y - c2.y) * (c1.y - c2.y))
      < (c1.size + c2.size) / 2 + 20) :
    interactBody c1 c2 r
        = InteractOut.merged (fuseEasy (attractStep c1 c2).1 (attractStep c1 c2).2)
      ∧ (fuseEasy (attractStep c1 c2).1 (attractStep c1 c2).2).mass
          = c1.mass + c2.mass
      ∧ (fuseEasy (attractStep c1 c2).1 (attractStep c1 c2).2).x
          = (c1.x * c1.mass + c2.x * (c1.mass + c2.mass))
            / (c1.mass + (c1.mass + c2.mass))
      ∧ (fuseEasy (attractStep c1 c2).1 (attractStep c1 c2).2).y
          = (c1.y * c1.mass + c2.y * (c1.mass + c2.mass))
            / (c1.mass + (c1.mass + c2.mass))
      ∧ (fuseEasy (attractStep c1 c2).1 (attractStep c1 c2).2).vx
          = ((attractStep c1 c2).1.vx * c1.mass
              + (attractStep c1 c2).2.vx * (c1.mass + c2.mass))
            / (c1.mass + (c1.mass + c2.mass))
      ∧ (fuseEasy (attractStep c1 c2).1 (attractStep c1 c2).2).splitTime = 0
      ∧ (fuseEasy (attractStep c1 c2).1 (attractStep c1 c2).2).canMerge = true := by
  have hmain : interactBody c1 c2 r
      = InteractOut.merged (fuseEasy (attractStep c1 c2).1 (attractStep c1 c2).2) := by
    rw [interactBody]
    rw [if_pos ⟨h1, h2⟩, if_pos hd]
  refine ⟨hmain, ?_, ?_, ?_, ?_, ?_, ?_⟩
  · rw [fuseEasy]
    rw [attract_fst_mass, attract_snd_mass]
    ring
  · rw [fuseEasy]
    simp only [attract_fst_mass, attract_snd_mass, attract_fst_x, attract_snd_x]
    ring_nf
  · rw [fuseEasy]
    simp only [attract_fst_mass, attract_snd_mass, attract_fst_y, attract_snd_y]
    ring_nf
  · rw [fuseEasy]
    simp only [attract_fst_mass, attract_snd_mass]
    ring_nf
  · rfl
  · rfl

/-- C3 witness: two eligible 100-mass cells 10 apart fuse with the stated
formulas. -/
theorem merge_easy_witness :
    interactBody cellM1 cellM2 0
        = InteractOut.merged (fuseEasy (attractStep cellM1 cellM2).1 (attractStep cellM1 cellM2).2)
      ∧ (fuseEasy (attractStep cellM1 cellM2).1 (attractStep cellM1 cellM2).2).mass
          = cellM1.mass + cellM2.mass := by
  have h := merge_easy_formula cellM1 cellM2 0 (by simp [cellM1]) (by simp [cellM2]) ?_
  · exact ⟨h.1, h.2.1⟩
  · simp only [cellM1, cellM2]
    norm_num
    rw [sqrt100]
    norm_num

/-- C3 counterexample: for the two 100-mass cells at x = 0 and x = 10 the
merged x coordinate is 20/3, not the mass-weighted average 5 claimed by the
spec. -/
theorem merge_position_counterexample :
    interactBody cellM1 cellM2 0
        = InteractOut.merged (fuseEasy (attractStep cellM1 cellM2).1 (attractStep cellM1 cellM2).2)
      ∧ (fuseEasy (attractStep cellM1 cellM2).1 (attractStep cellM1 cellM2).2).x = 20 / 3
      ∧ (cellM1.x * cellM1.mass + cellM2.x * cellM2.mass) / (cellM1.mass + cellM2.mass) = 5
      ∧ (20 / 3 : ℝ) ≠ 5 := by
  have hd : Real.sqrt ((cellM1.x - cellM2.x) * (cellM1.x - cellM2.x)
      + (cellM1.y - cellM2.y) * (cellM1.y - cellM2.y))
      < (cellM1.size + cellM2.size) / 2 + 20 := by
    simp only [cellM1, cellM2]
    norm_num
    rw [sqrt100]
    norm_num
  have hmain : interactBody cellM1 cellM2 0
      = InteractOut.merged (fuseEasy (attractStep cellM1 cellM2).1 (attractStep cellM1 cellM2).2) := by
    rw [interactBody]
    rw [if_pos ⟨(by simp [cellM1] : cellM1.canMerge = true),
      (by simp [cellM2] : cellM2.canMerge = true)⟩, if_pos hd]
  refine ⟨hmain, ?_, ?_, by norm_num⟩
  · rw [fuseEasy]
    simp only [attract_fst_mass, attract_snd_mass, attract_fst_x, attract_snd_x]
    simp only [cellM1, cellM2]
    norm_num
  · simp only [cellM1, cellM2]
    norm_num

theorem growth_invulnerable (p : MPlayer) :
    (checkGrowthMilestones p).invulnerable = p.invulnerable := by
  rw [checkGrowthMilestones]
  split_ifs with h
  · cases p.cells[largestIdx p.cells]? <;> rfl
  · rfl

/-- C6: an invulnerable player cannot be consumed: its invulnerable flag
survives any update within 3000 ms of the spawn, canEat against it is false
for every opponent whatever the masses, and the player-vs-player collision
step leaves both players unchanged and scatters no food. -/
theorem invulnerable_no_eat (p1 p2 : MPlayer) (now dt w h : ℝ)
    (rand : ℕ → ℕ → ℝ) (rands : ℕ → ℝ) (ids : ℕ → ℕ)
    (hinv : p2.invulnerable = true) :
    (now - p2.invulnerabilityStart ≤ 3000 →
        (p2.update now dt rand).invulnerable = true)
      ∧ ¬ canEat p1 p2
      ∧ collidePP p1 p2 w h rands ids = (p1, p2, []) := by
  refine ⟨?_, ?_, ?_⟩
  · intro hwin
    rw [MPlayer.update]
    split_ifs with ha hcond
    · exact hinv
    · exact absurd hcond.2 (by linarith)
    · dsimp only
      rw [growth_invulnerable]
      exact hinv
  · intro hce
    simp [canEat, hinv] at hce
  · rw [collidePP, if_pos (Or.inr hinv)]

/-- C6 witness: the sample eater cannot touch the invulnerable sample
victim. -/
theorem invulnerable_no_eat_witness :
    (playerBI.update 1000 0.05 (fun _ _ => 0)).invulnerable = true
      ∧ ¬ canEat playerA playerBI
      ∧ collidePP playerA playerBI 5000 5000 (fun _ => 0) (fun i => 100 + i)
          = (playerA, playerBI, []) := by
  have h := invulnerable_no_eat playerA playerBI 1000 0.05 5000 5000
    (fun _ _ => 0) (fun _ => 0) (fun i => 100 + i) (by simp [playerBI])
  exact ⟨h.1 (by norm_num [playerBI]), h.2.1, h.2.2⟩

/-- C10: eatFood only ever tests the player's closest cell: whenever that
cell does not overlap the food, eatFood returns false (modelled as none,
with no state change), even if some farther cell does overlap. -/
theorem eatFood_closest_only (p : MPlayer) (f : MFood) (c : PCell)
    (ha : p.alive = true) (hne : p.cells ≠ [])
    (hc : p.cells[closestIdx p.cells f.x f.y]? = some c)
    (hfar : ¬ distPts c.x c.y f.x f.y < (c.size + f.size) / 2) :
    p.eatFood f = none := by
  rw [MPlayer.eatFood]
  rw [if_neg (by simp [ha, hne])]
  dsimp only
  rw [hc]
  dsimp only
  rw [if_neg hfar]

/-- C10 witness: the closest cell of player10 is 20 away from the food
(threshold 13, no overlap), while its farther huge cell does overlap
(100 < 153), yet eatFood returns false. -/
theorem eatFood_closest_only_witness :
    player10.eatFood foodO = none
      ∧ distPts cellFar.x cellFar.y foodO.x foodO.y
          < (cellFar.size + foodO.size) / 2
      ∧ ¬ distPts cellNear.x cellNear.y foodO.x foodO.y
          < (cellNear.size + foodO.size) / 2 := by
  have hdn : distPts cellNear.x cellNear.y foodO.x foodO.y = 20 := by
    simp only [cellNear, foodO, distPts]
    norm_num
    exact sqrt400
  have hdf : distPts cellFar.x cellFar.y foodO.x foodO.y = 100 := by
    simp only [cellFar, foodO, distPts]
    norm_num
    exact sqrt10000
  have h2 : ¬ distPts cellFar.x cellFar.y foodO.x foodO.y
      < distPts cellNear.x cellNear.y foodO.x foodO.y := by
    rw [hdn, hdf]; norm_num
  have hidx : closestIdx player10.cells foodO.x foodO.y = 0 := by
    simp only [player10, closestIdx, List.foldl_cons, List.foldl_nil]
    rw [if_neg (lt_irrefl _)]
    dsimp only
    rw [if_neg h2]
  refine ⟨?_, ?_, ?_⟩
  · apply eatFood_closest_only player10 foodO cellNear (by simp [player10])
      (by simp [player10]) ?_ ?_
    · rw [hidx]
      simp [player10]
    · rw [hdn]
      simp only [cellNear, foodO]
      norm_num
  · rw [hdf]
    simp only [cellFar, foodO]
    norm_num
  · rw [hdn]
    simp only [cellNear, foodO]
    norm_num

theorem mem_getNearby_center (g : Cluster.Grid) (x y : ℝ) (pid : ℕ)
    (h : pid ∈ g (Cluster.getCell x y)) : pid ∈ Cluster.getNearby g x y 1 := by
  rw [Cluster.getNearby]
  rw [Finset.mem_biUnion]
  refine ⟨(⌊x / 500⌋, ⌊y / 500⌋), ?_, h⟩
  rw [Finset.mem_product]
  constructor <;> rw [Finset.mem_Icc] <;> omega

/-- C8: after a cluster-server player update, a ring-radius-1 range query
at the player's true position contains the player's own id, provided the id
was in its recorded bucket beforehand. -/
theorem grid_query_self (p : Cluster.CPlayer) (g : Cluster.Grid) (now : ℝ)
    (h : p.id ∈ g p.gridCell) :
    (p.update g now).1.id ∈
      Cluster.getNearby (p.update g now).2 (p.update g now).1.x (p.update g now).1.y 1 := by
  rw [Cluster.CPlayer.update]
  dsimp only
  apply mem_getNearby_center
  split_ifs with hne
  · dsimp only
    rw [Cluster.addPlayer]
    rw [if_pos rfl]
    exact Finset.mem_insert_self _ _
  · dsimp only
    push_neg at hne
    rw [hne]
    exact h

/-- C8 witness: the stationary sample player in bucket (1, 0) is found by a
ring-1 query at its own position after an update. -/
theorem grid_query_self_witness :
    (cp8.update g8 1000).1.id ∈
      Cluster.getNearby (cp8.update g8 1000).2 (cp8.update g8 1000).1.x
        (cp8.update g8 1000).1.y 1 :=
  grid_query_self cp8 g8 1000 (by simp [cp8, g8])

/-- C9: the failing input evaluated.  The moving player leaves bucket (1, 0)
for (2, 0), but Player.update passes the bucket coordinates (1, 0) as world
coordinates to removePlayer, which therefore erases the id from bucket
getCell(1, 0) = (0, 0); the stale id remains in the old bucket (1, 0) after
the update, contradicting the claimed removal. -/
theorem grid_stale_bucket :
    (cp9.update g8 1000).1.gridCell = (2, 0)
      ∧ ((cp9.update g8 1000).2) (1, 0) = {7}
      ∧ 7 ∈ ((cp9.update g8 1000).2) (2, 0) := by
  have hdt : ((1000 : ℝ) - cp9.lastUpdate) / 1000 = 1 := by
    simp [cp9]
  have hx1 : cp9.x + cp9.vx * (((1000 : ℝ) - cp9.lastUpdate) / 1000) * 60 = 1200 := by
    rw [hdt]; simp [cp9]; norm_num
  have hy1 : cp9.y + cp9.vy * (((1000 : ℝ) - cp9.lastUpdate) / 1000) * 60 = 100 := by
    rw [hdt]; simp [cp9]
  have hrad : cp9.size / 2 = 10 := by simp [cp9]; norm_num
  have hx2 : max (cp9.size / 2) (min (5000 - cp9.size / 2)
      (cp9.x + cp9.vx * (((1000 : ℝ) - cp9.lastUpdate) / 1000) * 60)) = 1200 := by
    rw [hx1, hrad]; norm_num
  have hy2 : max (cp9.size / 2) (min (5000 - cp9.size / 2)
      (cp9.y + cp9.vy * (((1000 : ℝ) - cp9.lastUpdate) / 1000) * 60)) = 100 := by
    rw [hy1, hrad]; norm_num
  have hcell : Cluster.getCell 1200 100 = (2, 0) := by
    rw [Cluster.getCell, Prod.mk.injEq]
    refine ⟨?_, ?_⟩ <;> · rw [Int.floor_eq_iff] <;> norm_num
  have hcell10 : Cluster.getCell (((1 : ℤ) : ℝ)) (((0 : ℤ) : ℝ)) = (0, 0) := by
    rw [Cluster.getCell, Prod.mk.injEq]
    refine ⟨?_, ?_⟩ <;> · rw [Int.floor_eq_iff] <;> norm_num
  rw [Cluster.CPlayer.update]
  dsimp only
  rw [hx2, hy2, hcell]
  rw [if_pos (by simp [cp9])]
  refine ⟨rfl, ?_, ?_⟩
  · simp only [Cluster.addPlayer, Cluster.removePlayer]
    rw [hcell]
    rw [if_neg (by decide)]
    simp only [cp9]
    rw [hcell10]
    rw [if_neg (by decide)]
    simp [g8]
  · simp only [Cluster.addPlayer]
    rw [hcell]
    rw [if_pos rfl]
    exact Finset.mem_insert_self _ _

theorem findHit_spec (a : PCell) :
    ∀ (bs : List PCell) (k j : ℕ), findHit a bs k = some j →
      ∃ b, bs[j - k]? = some b ∧ eatCond a b ∧ k ≤ j
  | [], k, j, h => absurd h (by simp [findHit])
  | b :: bs, k, j, h => by
    rw [findHit] at h
    split_ifs at h with hc
    · have hj := Option.some_injective _ h
      subst hj
      exact ⟨b, by simp, hc, le_refl _⟩
    · obtain ⟨b', hb', hec, hk⟩ := findHit_spec a bs (k + 1) j h
      refine ⟨b', ?_, hec, by omega⟩
      rw [show j - k = (j - (k + 1)) + 1 by omega]
      simpa using hb'

theorem findEatPairFrom_spec (bs : List PCell) :
    ∀ (as : List PCell) (k i j : ℕ), findEatPairFrom bs as k = some (i, j) →
      ∃ a b, as[i - k]? = some a ∧ bs[j]? = some b ∧ eatCond a b ∧ k ≤ i
  | [], k, i, j, h => absurd h (by simp [findEatPairFrom])
  | a :: as, k, i, j, h => by
    rw [findEatPairFrom] at h
    cases hhit : findHit a bs 0 with
    | some j0 =>
      rw [hhit] at h
      have hij := Option.some_injective _ h
      injection hij with hi hj
      subst hi
      subst hj
      obtain ⟨b, hb, hec, _⟩ := findHit_spec a bs 0 j0 hhit
      exact ⟨a, b, by simp, by simpa using hb, hec, le_refl k⟩
    | none =>
      rw [hhit] at h
      obtain ⟨a', b', ha', hb', hec, hk⟩ := findEatPairFrom_spec bs as (k + 1) i j h
      refine ⟨a', b', ?_, hb', hec, by omega⟩
      rw [show i - k = (i - (k + 1)) + 1 by omega]
      simpa using ha'

theorem findEatPair_spec {as bs : List PCell} {i j : ℕ}
    (h : findEatPair as bs = some (i, j)) :
    ∃ a b, as[i]? = some a ∧ bs[j]? = some b ∧ eatCond a b := by
  obtain ⟨a, b, ha, hb, hec, _⟩ := findEatPairFrom_spec bs as 0 i j h
  exact ⟨a, b, by simpa using ha, hb, hec⟩

theorem eat_spec {p o : MPlayer} (hce : canEat p o) :
    ∃ i j mc oc, findEatPair p.cells o.cells = some (i, j)
      ∧ p.cells[i]? = some mc ∧ o.cells[j]? = some oc ∧ eatCond mc oc
      ∧ p.eat o = some
          ({ p with
              cells := p.cells.set i
                { mc with mass := mc.mass + oc.mass * 0.8,
                          size := Real.sqrt (mc.mass + oc.mass * 0.8) },
              kills := p.kills + 1 }, o.die) := by
  obtain ⟨⟨i, j⟩, hfind⟩ := Option.isSome_iff_exists.mp hce.2.2.2.2
  obtain ⟨mc, oc, hi, hj, hec⟩ := findEatPair_spec hfind
  refine ⟨i, j, mc, oc, hfind, hi, hj, hec, ?_⟩
  rw [MPlayer.eat, if_pos hce, hfind]
  dsimp only
  rw [hi, hj]

theorem sum_map_const_real (n : ℕ) (c : ℝ) :
    ((List.range n).map (fun _ => c)).sum = n * c := by
  induction n with
  | zero => simp
  | succ k ih =>
    rw [List.range_succ, List.map_append, List.sum_append]
    simp [ih]
    ring

theorem scatter_length (x y mass w h : ℝ) (rands : ℕ → ℝ) (ids : ℕ → ℕ) :
    (createFoodExplosion x y mass w h rands ids).length
      = min (⌊mass / 20⌋.toNat) 20 := by
  simp [createFoodExplosion]

theorem scatter_nutrition_sum (x y mass w h : ℝ) (rands : ℕ → ℝ) (ids : ℕ → ℕ) :
    ((createFoodExplosion x y mass w h rands ids).map
        (fun f => f.nutritionValue)).sum
      = 2 * (min (⌊mass / 20⌋.toNat) 20 : ℕ) := by
  rw [createFoodExplosion]
  dsimp only
  rw [List.map_map]
  rw [show ((fun f => MFood.nutritionValue f) ∘ fun (i : ℕ) =>
      foodCreateAt (ids i)
        (max 10 (min (w - 10) (x + Real.cos (Real.pi * 2 * (i : ℝ) /
          ((min (⌊mass / 20⌋.toNat) 20 : ℕ) : ℝ)) * (50 + rands i * 100))))
        (max 10 (min (h - 10) (y + Real.sin (Real.pi * 2 * (i : ℝ) /
          ((min (⌊mass / 20⌋.toNat) 20 : ℕ) : ℝ)) * (50 + rands i * 100))))
        8 2) = fun _ => (2 : ℝ) from rfl]
  rw [sum_map_const_real]
  ring

/-- C1 (amended): whenever the collision step lets A eat B, the first
eligible cell pair (mass ratio above 1.2, overlapping centers) transfers
0.8 of the victim cell's mass to the eating cell, B loses all cells and its
alive flag, and the food scatter consists of min(floor(M/20), 20) items of
nutrition value 2 each (total 2*count), where M is B's pre-death total mass
— not a scatter totalling M. -/
theorem eat_gain_and_scatter (p1 p2 : MPlayer) (w h : ℝ)
    (rands : ℕ → ℝ) (ids : ℕ → ℕ)
    (h1 : p1.invulnerable = false) (h2 : p2.invulnerable = false)
    (hcol : collidesWith p1 p2) (hce : canEat p1 p2) :
    ∃ i j mc oc, findEatPair p1.cells p2.cells = some (i, j)
      ∧ p1.cells[i]? = some mc ∧ p2.cells[j]? = some oc
      ∧ mc.mass > oc.mass * 1.2
      ∧ distPts mc.x mc.y oc.x oc.y < (mc.size + oc.size) / 2
      ∧ (collidePP p1 p2 w h rands ids).1.cells
          = p1.cells.set i
              { mc with mass := mc.mass + oc.mass * 0.8,
                        size := Real.sqrt (mc.mass + oc.mass * 0.8) }
      ∧ (collidePP p1 p2 w h rands ids).2.1.cells = []
      ∧ (collidePP p1 p2 w h rands ids).2.1.alive = false
      ∧ (collidePP p1 p2 w h rands ids).2.2.length
          = min (⌊getTotalMass p2 / 20⌋.toNat) 20
      ∧ ((collidePP p1 p2 w h rands ids).2.2.map (fun f => f.nutritionValue)).sum
          = 2 * (min (⌊getTotalMass p2 / 20⌋.toNat) 20 : ℕ) := by
  obtain ⟨i, j, mc, oc, hfind, hi, hj, hec, heat⟩ := eat_spec hce
  have hpp : collidePP p1 p2 w h rands ids
      = ({ p1 with
            cells := p1.cells.set i
              { mc with mass := mc.mass + oc.mass * 0.8,
                        size := Real.sqrt (mc.mass + oc.mass * 0.8) },
            kills := p1.kills + 1 }, p2.die,
          createFoodExplosion (getCenterPosition p2).1 (getCenterPosition p2).2
            (getTotalMass p2) w h rands ids) := by
    rw [collidePP]
    rw [if_neg (by simp [h1, h2]), if_pos hcol, if_pos hce]
    rw [heat]
  refine ⟨i, j, mc, oc, hfind, hi, hj, hec.1, hec.2, ?_, ?_, ?_, ?_, ?_⟩
  · rw [hpp]
  · rw [hpp]; rfl
  · rw [hpp]; rfl
  · rw [hpp]
    exact scatter_length _ _ _ _ _ _ _
  · rw [hpp]
    exact scatter_nutrition_sum _ _ _ _ _ _ _

theorem pAB_eatCond : eatCond cellA cellB := by
  constructor
  · simp only [cellA, cellB]
    norm_num
  · simp only [cellA, cellB, distPts]
    norm_num
    rw [sqrt25]
    norm_num

theorem pAB_find : findEatPair playerA.cells playerB.cells = some (0, 0) := by
  simp only [playerA, playerB, findEatPair, findEatPairFrom, findHit]
  rw [if_pos pAB_eatCond]

theorem pAB_canEat : canEat playerA playerB := by
  refine ⟨by simp [playerA], by simp [playerB], by simp [playerA, playerB],
    by simp [playerB], ?_⟩
  rw [pAB_find]
  rfl

theorem pAB_collides : collidesWith playerA playerB := by
  refine ⟨by simp [playerA], by simp [playerB],
    cellA, by simp [playerA], cellB, by simp [playerB], ?_⟩
  simp only [cellA, cellB, distPts]
  norm_num
  rw [sqrt25]
  norm_num

/-- C1 witness: the amended theorem applied to the concrete 900-mass eater
and 400-mass victim. -/
theorem eat_gain_and_scatter_witness :
    ∃ i j mc oc, findEatPair playerA.cells playerB.cells = some (i, j)
      ∧ playerA.cells[i]? = some mc ∧ playerB.cells[j]? = some oc
      ∧ mc.mass > oc.mass * 1.2
      ∧ distPts mc.x mc.y oc.x oc.y < (mc.size + oc.size) / 2
      ∧ (collidePP playerA playerB 5000 5000 (fun _ => 0) (fun i => 100 + i)).1.cells
          = playerA.cells.set i
              { mc with mass := mc.mass + oc.mass * 0.8,
                        size := Real.sqrt (mc.mass + oc.mass * 0.8) }
      ∧ (collidePP playerA playerB 5000 5000 (fun _ => 0) (fun i => 100 + i)).2.1.cells = []
      ∧ (collidePP playerA playerB 5000 5000 (fun _ => 0) (fun i => 100 + i)).2.1.alive = false
      ∧ (collidePP playerA playerB 5000 5000 (fun _ => 0) (fun i => 100 + i)).2.2.length
          = min (⌊getTotalMass playerB / 20⌋.toNat) 20
      ∧ ((collidePP playerA playerB 5000 5000 (fun _ => 0) (fun i => 100 + i)).2.2.map
            (fun f => f.nutritionValue)).sum
          = 2 * (min (⌊getTotalMass playerB / 20⌋.toNat) 20 : ℕ) :=
  eat_gain_and_scatter playerA playerB 5000 5000 (fun _ => 0) (fun i => 100 + i)
    (by simp [playerA]) (by simp [playerB]) pAB_collides pAB_canEat

/-- C1 counterexample: in the concrete eat of the 400-mass victim the
scatter consists of 20 food items of nutrition 2, summing to 40, which is
not the victim's pre-death mass 400 under any rounding tolerance. -/
theorem eat_scatter_counterexample :
    getTotalMass playerB = 400
      ∧ (collidePP playerA playerB 5000 5000 (fun _ => 0) (fun i => 100 + i)).2.1.alive = false
      ∧ ((collidePP playerA playerB 5000 5000 (fun _ => 0) (fun i => 100 + i)).2.2.map
            (fun f => f.nutritionValue)).sum = 40
      ∧ ((40 : ℝ) ≠ 400)
      ∧ (300 : ℝ) ≤ |(40 : ℝ) - 400| := by
  have htotal : getTotalMass playerB = 400 := by
    simp [getTotalMass, playerB, cellB]
  obtain ⟨i, j, mc, oc, hfind, hi, hj, hec, heat⟩ := eat_spec pAB_canEat
  have hpp : collidePP playerA playerB 5000 5000 (fun _ => 0) (fun i => 100 + i)
      = ({ playerA with
            cells := playerA.cells.set i
              { mc with mass := mc.mass + oc.mass * 0.8,
                        size := Real.sqrt (mc.mass + oc.mass * 0.8) },
            kills := playerA.kills + 1 }, playerB.die,
          createFoodExplosion (getCenterPosition playerB).1 (getCenterPosition playerB).2
            (getTotalMass playerB) 5000 5000 (fun _ => 0) (fun i => 100 + i)) := by
    rw [collidePP]
    rw [if_neg (by simp [playerA, playerB]), if_pos pAB_collides, if_pos pAB_canEat]
    rw [heat]
  refine ⟨htotal, ?_, ?_, by norm_num, by norm_num⟩
  · rw [hpp]; rfl
  · rw [hpp]
    rw [scatter_nutrition_sum]
    rw [htotal]
    norm_num
    rw [show ((20 : ℤ).toNat) = 20 from rfl]
    norm_num

/-- C5 (amended): after the update-and-constrain phase of a tick, every
cell's center lies within [size/2, w - size/2] x [size/2, h - size/2],
where size = sqrt(mass) — the code's radius is size/2, not sqrt(mass) —
provided each cell fits in the world. -/
theorem constrain_containment (p : MPlayer) (now dt w h : ℝ)
    (rand : ℕ → ℕ → ℝ)
    (hb : ∀ c ∈ (p.update now dt rand).cells, c.size ≤ w ∧ c.size ≤ h) :
    ∀ c ∈ ((p.update now dt rand).constrainToWorld w h).cells,
      c.size / 2 ≤ c.x ∧ c.x ≤ w - c.size / 2
        ∧ c.size / 2 ≤ c.y ∧ c.y ≤ h - c.size / 2 := by
  intro c hc
  rw [MPlayer.constrainToWorld] at hc
  dsimp only at hc
  rcases List.mem_map.mp hc with ⟨c0, hc0, rfl⟩
  obtain ⟨hw, hh⟩ := hb c0 hc0
  rw [PCell.constrainToWorld]
  dsimp only
  refine ⟨le_max_left _ _, ?_, le_max_left _ _, ?_⟩
  · apply max_le
    · linarith
    · exact le_trans (min_le_left _ _) (by linarith)
  · apply max_le
    · linarith
    · exact le_trans (min_le_left _ _) (by linarith)

theorem closestIdx_single (c : PCell) (fx fy : ℝ) : closestIdx [c] fx fy = 0 := by
  simp only [closestIdx, List.foldl_cons, List.foldl_nil]
  rw [if_neg (lt_irrefl _)]

theorem largestIdx_single (c : PCell) : largestIdx [c] = 0 := by
  simp only [largestIdx, List.foldl_cons, List.foldl_nil]
  rw [if_neg (lt_irrefl _)]

theorem handle_single (c : PCell) (rand : ℕ → ℕ → ℝ) :
    handleCellInteractions [c] rand = [c] := by
  rw [handleCellInteractions]
  rw [if_pos (by simp)]

/-- C2 (amended): a single-cell alive player consumes a not-yet-eaten food
item in the collision scan exactly when the center distance is below half
the sum of the sizes, (cell.size + food.size)/2 with size = sqrt(mass);
on consumption the cell gains the food's nutrition value. -/
theorem food_eat_rule (p : MPlayer) (c : PCell) (f : MFood)
    (ha : p.alive = true) (hc : p.cells = [c]) (he : f.eaten = false)
    (hn : f.nutritionValue ≠ 0) :
    (distPts c.x c.y f.x f.y < (c.size + f.size) / 2 →
      cellFoodScan p 0 [f]
        = ({ p with cells := [{ c with
              mass := c.mass + f.nutritionValue,
              size := Real.sqrt (c.mass + f.nutritionValue) }] }, []))
    ∧ (¬ distPts c.x c.y f.x f.y < (c.size + f.size) / 2 →
      cellFoodScan p 0 [f] = (p, [f])) := by
  have h0 : p.cells[0]? = some c := by rw [hc]; rfl
  constructor
  · intro hd
    have hefood : p.eatFood f = some { p with cells := [{ c with
        mass := c.mass + f.nutritionValue,
        size := Real.sqrt (c.mass + f.nutritionValue) }] } := by
      rw [MPlayer.eatFood]
      rw [if_neg (by simp [ha, hc])]
      dsimp only
      rw [show closestIdx p.cells f.x f.y = 0 by
        rw [hc]; exact closestIdx_single c f.x f.y]
      rw [h0]
      dsimp only
      rw [if_pos hd, if_neg hn, hc]
      rfl
    rw [cellFoodScan]
    rw [if_neg (by simp [he])]
    rw [h0]
    dsimp only
    rw [if_pos hd, hefood]
  · intro hd
    rw [cellFoodScan]
    rw [if_neg (by simp [he])]
    rw [h0]
    dsimp only
    rw [if_neg hd, cellFoodScan]

/-- C2 witness: the rule applied to the freshly spawned sample player and a
food item at distance 12 < 13: the food is consumed and the cell's mass
becomes 401. -/
theorem food_eat_rule_witness :
    (cellFoodScan player2C 0 [food12]).2 = []
      ∧ (cellFoodScan player2C 0 [food12]).1.cells.map (fun c => c.mass) = [401] := by
  have hd : distPts cell2C.x cell2C.y food12.x food12.y
      < (cell2C.size + food12.size) / 2 := by
    simp only [cell2C, food12, distPts]
    norm_num
    rw [sqrt144]
    norm_num
  have h := (food_eat_rule player2C cell2C food12 (by simp [player2C])
    (by simp [player2C]) (by simp [food12]) (by simp [food12])).1 hd
  rw [h]
  constructor
  · rfl
  · simp only [List.map_cons, List.map_nil, cell2C, food12]
    norm_num

theorem cell2C_up : decayStep (cell2C.update 0.05 10000) 0.05
    = (⟨1, 2500, 2500, Real.sqrt 400, 400, 0, 0, 0, true⟩ : PCell) := by
  have h1 : cell2C.update 0.05 10000
      = (⟨1, 2500, 2500, Real.sqrt 400, 400, 0, 0, 0, true⟩ : PCell) := by
    rw [PCell.update]
    simp only [cell2C]
    norm_num [PCell.mk.injEq]
  rw [h1, decayStep, if_neg (by norm_num)]

theorem p2C_update (rand : ℕ → ℕ → ℝ) :
    player2C.update 10000 0.05 rand = player450 := by
  rw [MPlayer.update]
  rw [if_neg (by simp [player2C])]
  dsimp only
  rw [show (List.map (fun c => decayStep (c.update 0.05 10000) 0.05) player2C.cells)
      = [(⟨1, 2500, 2500, Real.sqrt 400, 400, 0, 0, 0, true⟩ : PCell)] by
    simp only [player2C, List.map_cons, List.map_nil]
    rw [cell2C_up]]
  rw [handle_single]
  rw [if_neg (by simp [player2C]; norm_num)]
  rw [checkGrowthMilestones]
  dsimp only
  rw [show (List.map (fun c => c.mass)
      [(⟨1, 2500, 2500, Real.sqrt 400, 400, 0, 0, 0, true⟩ : PCell)]).sum = (400 : ℝ) by
    simp]
  rw [show (⌊(400 : ℝ) / 4⌋ : ℤ) = 100 by norm_num]
  rw [show (⌊((100 : ℤ) : ℝ) / 100⌋ : ℤ) = 1 by norm_num]
  rw [if_pos (by simp [player2C])]
  rw [largestIdx_single]
  simp only [player2C, player450, cell450, List.set]
  norm_num [PCell.mk.injEq, sqrt400]

theorem p450_constrain : player450.constrainToWorld 5000 5000 = player450 := by
  have hs := sqrt450_le
  have hn := Real.sqrt_nonneg (450 : ℝ)
  rw [MPlayer.constrainToWorld]
  simp only [player450, cell450, List.map_cons, List.map_nil, PCell.constrainToWorld]
  rw [show min ((5000 : ℝ) - Real.sqrt 450 / 2) 2500 = 2500 from
    min_eq_right (by linarith)]
  rw [show max (Real.sqrt 450 / 2) (2500 : ℝ) = 2500 from
    max_eq_right (by linarith)]

theorem food2C_not_eaten :
    ¬ distPts cell450.x cell450.y food2C.x food2C.y
      < (cell450.size + food2C.size) / 2 := by
  have hs := sqrt450_le
  have hd : distPts cell450.x cell450.y food2C.x food2C.y = 15 := by
    simp only [cell450, food2C, distPts]
    norm_num
    exact sqrt225
  rw [hd]
  simp only [cell450, food2C]
  push_neg
  linarith

/-- C2 counterexample: running one complete tick on the freshly spawned
mass-400 player with the nutrition-1 food at distance 15 leaves the food in
the world and raises the player's mass to 450 (growth-milestone bonus), not
to the claimed 401 with the food removed. -/
theorem food_scenario_counterexample :
    (tick [player2C] [food2C] 10000 9950 5000 5000 (fun _ _ _ => 0)
        (fun _ _ => 0) (fun _ _ => 0) 1000 supplyC).1.map getTotalMass = [450]
      ∧ (tick [player2C] [food2C] 10000 9950 5000 5000 (fun _ _ _ => 0)
          (fun _ _ => 0) (fun _ _ => 0) 1000 supplyC).2.head? = some food2C
      ∧ ((450 : ℝ) ≠ 401) := by
  have hdt : ((10000 : ℝ) - 9950) / 1000 = 0.05 := by norm_num
  have hup : updateAll 10000 (((10000 : ℝ) - 9950) / 1000) 5000 5000
      (fun _ _ _ => 0) [player2C] 0 = [player450] := by
    rw [updateAll, updateAll]
    rw [if_pos (by simp [player2C])]
    rw [hdt, p2C_update, p450_constrain]
  have hscan : cellFoodScan player450 0 [food2C] = (player450, [food2C]) := by
    rw [cellFoodScan]
    rw [if_neg (by simp [food2C])]
    rw [show player450.cells[0]? = some cell450 from by simp [player450]]
    dsimp only
    rw [if_neg food2C_not_eaten, cellFoodScan]
  have hcheck : checkCollisions [player450] [food2C] 5000 5000
      (fun _ _ => 0) (fun _ _ => 0) = ([player450], [food2C]) := by
    rw [checkCollisions]
    rw [show aliveIdxs [player450] = [0] from by
      rw [aliveIdxs, aliveIdxsFrom, if_pos (by simp [player450]), aliveIdxsFrom]]
    rw [show foodPassAll [0] [player450] [food2C] = ([player450], [food2C]) from by
      rw [foodPassAll]
      simp only [List.foldl_cons, List.foldl_nil]
      rw [show ([player450])[0]? = some player450 from rfl]
      dsimp only
      rw [show playerFoodPass player450 [food2C] = (player450, [food2C]) from by
        rw [playerFoodPass]
        rw [show List.range player450.cells.length = [0] from by
          simp only [player450, List.length_cons, List.length_nil]
          rfl]
        simp only [List.foldl_cons, List.foldl_nil]
        rw [hscan]]
      rfl]
    rw [show pairsOf [0] = [] from by rw [pairsOf, pairsOf]; rfl]
    rw [pvpAll]
  rw [tick]
  dsimp only
  rw [hup, hcheck]
  dsimp only
  rw [maintainFood]
  rw [if_pos (by norm_num)]
  refine ⟨?_, ?_, by norm_num⟩
  · simp [getTotalMass, player450, cell450]
  · simp

theorem cell324_up : decayStep (cell324.update 0.05 20000) 0.05 = cell324u := by
  have h1 : cell324.update 0.05 20000 = cell324u := by
    rw [PCell.update]
    simp only [cell324, cell324u]
    norm_num [PCell.mk.injEq]
  rw [h1, decayStep, if_neg (by simp [cell324u]; norm_num)]

theorem p5C_update (rand : ℕ → ℕ → ℝ) :
    player5C.update 20000 0.05 rand = player324u := by
  rw [MPlayer.update]
  rw [if_neg (by simp [player5C])]
  dsimp only
  rw [show (List.map (fun c => decayStep (c.update 0.05 20000) 0.05) player5C.cells)
      = [cell324u] by
    simp only [player5C, List.map_cons, List.map_nil]
    rw [cell324_up]]
  rw [handle_single]
  rw [checkGrowthMilestones]
  dsimp only
  rw [show (List.map (fun c => c.mass) [cell324u]).sum = (324 : ℝ) by
    simp [cell324u]]
  rw [show (⌊(324 : ℝ) / 4⌋ : ℤ) = 81 by norm_num]
  rw [show (⌊((81 : ℤ) : ℝ) / 100⌋ : ℤ) = 0 by norm_num]
  rw [if_neg (by simp [player5C])]
  simp [player5C, player324u]

theorem p324_constrain : player324u.constrainToWorld 5000 5000 = player324u := by
  rw [MPlayer.constrainToWorld]
  simp only [player324u, cell324u, List.map_cons, List.map_nil, PCell.constrainToWorld]
  rw [sqrt324]
  norm_num [PCell.mk.injEq, sqrt324]

/-- C5 counterexample: one complete tick on the wall-adjacent mass-324
player ends with the alive cell's center at x = 9, strictly below the
claimed lower bound radius = sqrt(mass) = 18. -/
theorem boundary_counterexample :
    (tick [player5C] [] 20000 19950 5000 5000 (fun _ _ _ => 0)
        (fun _ _ => 0) (fun _ _ => 0) 1000 supplyC).1 = [player324u]
      ∧ player324u.alive = true
      ∧ player324u.cells.map (fun c => (c.x, c.mass)) = [((9 : ℝ), (324 : ℝ))]
      ∧ ¬ (Real.sqrt 324 ≤ 9) := by
  have hdt : ((20000 : ℝ) - 19950) / 1000 = 0.05 := by norm_num
  have hup : updateAll 20000 (((20000 : ℝ) - 19950) / 1000) 5000 5000
      (fun _ _ _ => 0) [player5C] 0 = [player324u] := by
    rw [updateAll, updateAll]
    rw [if_pos (by simp [player5C])]
    rw [hdt, p5C_update, p324_constrain]
  have hcheck : checkCollisions [player324u] [] 5000 5000
      (fun _ _ => 0) (fun _ _ => 0) = ([player324u], []) := by
    rw [checkCollisions]
    rw [show aliveIdxs [player324u] = [0] from by
      rw [aliveIdxs, aliveIdxsFrom, if_pos (by simp [player324u]), aliveIdxsFrom]]
    rw [show foodPassAll [0] [player324u] [] = ([player324u], []) from by
      rw [foodPassAll]
      simp only [List.foldl_cons, List.foldl_nil]
      rw [show ([player324u])[0]? = some player324u from rfl]
      dsimp only
      rw [show playerFoodPass player324u [] = (player324u, []) from by
        rw [playerFoodPass]
        rw [show List.range player324u.cells.length = [0] from by
          simp only [player324u, List.length_cons, List.length_nil]
          rfl]
        simp only [List.foldl_cons, List.foldl_nil]
        rw [cellFoodScan]]
      rfl]
    rw [show pairsOf [0] = [] from by rw [pairsOf, pairsOf]; rfl]
    rw [pvpAll]
  rw [tick]
  dsimp only
  rw [hup, hcheck]
  refine ⟨rfl, rfl, by simp [player324u, cell324u], ?_⟩
  rw [sqrt324]
  norm_num

/-- C5 witness: the amended containment theorem instantiated on the
wall-adjacent player: after update and constrain its cell satisfies
size/2 ≤ x ≤ 5000 - size/2 and size/2 ≤ y ≤ 5000 - size/2. -/
theorem constrain_containment_witness :
    Real.sqrt 324 / 2 ≤ 9 ∧ (9 : ℝ) ≤ 5000 - Real.sqrt 324 / 2
      ∧ Real.sqrt 324 / 2 ≤ 100 ∧ (100 : ℝ) ≤ 5000 - Real.sqrt 324 / 2 := by
  have hb : ∀ c ∈ (player5C.update 20000 0.05 (fun _ _ => 0)).cells,
      c.size ≤ (5000 : ℝ) ∧ c.size ≤ (5000 : ℝ) := by
    rw [p5C_update]
    intro c hcm
    simp only [player324u, List.mem_singleton] at hcm
    rw [hcm]
    constructor <;> · simp only [cell324u]; rw [sqrt324]; norm_num
  have h := constrain_containment player5C 20000 0.05 5000 5000 (fun _ _ => 0) hb
  rw [p5C_update, p324_constrain] at h
  have h2 := h cell324u (by simp [player324u])
  simpa only [cell324u] using h2

end EWC
